import Mathlib

/-!
Shallow embedding of the Solana lottery backend (`src/main.py` together with
the document shapes of `src/schemas.py`).

Modelling conventions:
* MongoDB collections become Lean lists kept in insertion order; `find_one`
  becomes `List.find?` (first match), `insert_one` appends, `update_one`
  updates the first matching document (`updateFirst`).
* Timestamps are abstract `Nat` values; each request receives the current
  time as a parameter (`now_utc()`).
* `HTTPException` becomes the `ApiError` taxonomy via `Except`; every route
  raises before mutating, so an error leaves the state unchanged.
* The external Solana JSON-RPC call of `verify_signature_on_chain` is an
  oracle `Chain : endpoint → signature → RpcOutcome`; `timeout` and
  `transportFailure` model the exceptions swallowed by the `try/except`,
  `response none` models a missing or null `"result"` field, and
  `response (some r)` carries the parsed transaction.  `meta = none` models a
  falsy `meta` value (absent, null or empty), matching Python truthiness.
* `random.choice(verified_entries)` is modelled by an arbitrary index
  parameter `pick`, reduced modulo the list length.
-/

/-- Error taxonomy of the HTTP layer: 404 round/entry absent, 400 duplicate
`round_id`/`tx_signature`, 400 round closed, 400 no verified entries. -/
inductive ApiError where
  | NotFound
  | Conflict
  | InvalidState
  | NoEligibleEntries
  deriving DecidableEq, Repr

/-- Document of the `lotteryround` collection (`create_round` in `main.py`,
`LotteryRound` in `schemas.py`). -/
structure Round where
  round_id : String
  is_active : Bool
  entry_fee_lamports : Nat
  treasury_address : String
  network : String
  winner_address : Option String
  drawn_at : Option Nat
  created_at : Nat
  updated_at : Nat
  deriving DecidableEq, Repr

/-- Document of the `entry` collection (`enter_round` in `main.py`,
`Entry` in `schemas.py`). -/
structure Entry where
  round_id : String
  wallet_address : String
  tx_signature : String
  verified : Bool
  created_at : Nat
  updated_at : Nat
  deriving DecidableEq, Repr

/-- The shared document store: both collections. -/
structure DB where
  rounds : List Round
  entries : List Entry
  deriving DecidableEq, Repr

/-- The `meta` object of a fetched transaction; `err` is `none` when the
`err` key is absent or null. -/
structure TxMeta where
  err : Option String
  deriving DecidableEq, Repr

/-- The non-null `result` object of a `getTransaction` response:
`meta = none` models a falsy `meta` (absent, null, or empty dict);
`accountKeys` is `result.transaction.message.accountKeys` with missing
levels collapsing to the empty list, as the `.get(..., {})` defaults do. -/
structure TxResult where
  meta : Option TxMeta
  accountKeys : List String
  deriving DecidableEq, Repr

/-- Outcome of the single RPC query issued by `verify_signature_on_chain`:
`timeout` and `transportFailure` are the request exceptions caught by the
`try/except`, `response none` is a response whose `"result"` is missing or
null, `response (some r)` a response carrying a transaction. -/
inductive RpcOutcome where
  | timeout
  | transportFailure
  | response (result : Option TxResult)
  deriving DecidableEq, Repr

/-- The external ledger, as a map from (endpoint, signature) to the outcome
of the one-shot `getTransaction` query. -/
abbrev Chain := String → String → RpcOutcome

/-- The `NETWORK_ENDPOINTS` table of `main.py`. -/
def NETWORK_ENDPOINTS : List (String × String) :=
  [("devnet", "https://api.devnet.solana.com"),
   ("testnet", "https://api.testnet.solana.com"),
   ("mainnet-beta", "https://api.mainnet-beta.solana.com")]

/-- Endpoint resolution `NETWORK_ENDPOINTS.get(network, NETWORK_ENDPOINTS["devnet"])`. -/
def resolveEndpoint (network : String) : String :=
  match NETWORK_ENDPOINTS.lookup network with
  | some e => e
  | none => "https://api.devnet.solana.com"

/-- The test `if meta and meta.get("err") is not None` — true exactly when `meta` is
truthy and carries a non-null `err`. -/
def metaHasErr : Option TxMeta → Bool
  | none => false
  | some m => m.err.isSome

/-- One account-presence check of `verify_signature_on_chain`:
`if expected and expected not in account_keys: return False`.  Returns true
when the check passes, i.e. when `expected` is falsy (absent or the empty
string) or is a member of `account_keys`. -/
def accountKeyOk (account_keys : List String) (expected : Option String) : Bool :=
  match expected with
  | none => true
  | some s => s.isEmpty || account_keys.contains s

/-- The function `verify_signature_on_chain` of `main.py` (lines 65-98). -/
def verify_signature_on_chain (chain : Chain) (network tx_signature : String)
    (expected_wallet expected_treasury : Option String) : Bool :=
  let endpoint := resolveEndpoint network
  match chain endpoint tx_signature with
  | .timeout => false
  | .transportFailure => false
  | .response none => false
  | .response (some result) =>
    if metaHasErr result.meta then false
    else accountKeyOk result.accountKeys expected_wallet &&
         accountKeyOk result.accountKeys expected_treasury

/-- Mongo update_one semantics: rewrite the first element matching
the filter, leaving everything else untouched. -/
def updateFirst {α : Type} (p : α → Bool) (f : α → α) : List α → List α
  | [] => []
  | x :: xs => if p x then f x :: xs else x :: updateFirst p f xs

/-- The lookup inside `get_round`: find the first round document whose
`round_id` matches. -/
def findRound (s : DB) (round_id : String) : Option Round :=
  s.rounds.find? (fun r => r.round_id == round_id)

/-- The duplicate-signature check of `enter_round`:
`db["entry"].find_one({"tx_signature": body.tx_signature})` — first entry
with this signature in ANY round. -/
def findEntryBySig (s : DB) (tx_signature : String) : Option Entry :=
  s.entries.find? (fun e => e.tx_signature == tx_signature)

/-- The round document built by `create_round`. -/
def mkRoundDoc (now : Nat) (round_id : String) (entry_fee_lamports : Nat)
    (treasury_address network : String) : Round :=
  { round_id := round_id
    is_active := true
    entry_fee_lamports := entry_fee_lamports
    treasury_address := treasury_address
    network := network
    winner_address := none
    drawn_at := none
    created_at := now
    updated_at := now }

/-- Route `POST /api/rounds` (`create_round` in `main.py`). -/
def create_round (s : DB) (now : Nat) (round_id : String)
    (entry_fee_lamports : Nat) (treasury_address network : String) :
    Except ApiError (DB × Round) :=
  match findRound s round_id with
  | some _ => .error .Conflict
  | none =>
    let doc := mkRoundDoc now round_id entry_fee_lamports treasury_address network
    .ok ({ s with rounds := s.rounds ++ [doc] }, doc)

/-- The entry document built by `enter_round`. -/
def mkEntryDoc (round_id wallet_address tx_signature : String)
    (verified : Bool) (now : Nat) : Entry :=
  { round_id := round_id
    wallet_address := wallet_address
    tx_signature := tx_signature
    verified := verified
    created_at := now
    updated_at := now }

/-- The `insert_one` step of `enter_round`. -/
def enterInsert (s : DB) (entry_doc : Entry) : DB :=
  { s with entries := s.entries ++ [entry_doc] }

/-- Route `POST /api/rounds/{round_id}/enter` (`enter_round` in `main.py`):
look up the round (404), require it open (400), reject an already-seen
signature in any round (400), verify on chain, insert. -/
def enter_round (chain : Chain) (s : DB) (now : Nat)
    (round_id wallet_address tx_signature : String) :
    Except ApiError (DB × Entry) :=
  match findRound s round_id with
  | none => .error .NotFound
  | some r =>
    if r.is_active then
      match findEntryBySig s tx_signature with
      | some _ => .error .Conflict
      | none =>
        let verified := verify_signature_on_chain chain r.network tx_signature
          (some wallet_address) (some r.treasury_address)
        let entry_doc := mkEntryDoc round_id wallet_address tx_signature verified now
        .ok (enterInsert s entry_doc, entry_doc)
    else .error .InvalidState

/-- The entry lookup of `reverify_entry`:
`find_one({"round_id": round_id, "tx_signature": tx_signature})`. -/
def entryFilter (round_id tx_signature : String) (e : Entry) : Bool :=
  e.round_id == round_id && e.tx_signature == tx_signature

/-- The `$set` document of the `update_one` inside `reverify_entry`:
overwrite `verified` and `updated_at`, nothing else. -/
def setVerdict (v : Bool) (now : Nat) (e : Entry) : Entry :=
  { e with verified := v, updated_at := now }

/-- Route `POST /api/rounds/{round_id}/verify/{tx_signature}` (`reverify_entry` in
`main.py`): look up round and entry (404 each), re-run the chain check with
the stored wallet and the treasury of the round, overwrite `verified` and
`updated_at` on that one entry, return the re-fetched entry. -/
def reverify_entry (chain : Chain) (s : DB) (now : Nat)
    (round_id tx_signature : String) : Except ApiError (DB × Entry) :=
  match findRound s round_id with
  | none => .error .NotFound
  | some r =>
    match s.entries.find? (entryFilter round_id tx_signature) with
    | none => .error .NotFound
    | some entry =>
      let verified := verify_signature_on_chain chain r.network tx_signature
        (some entry.wallet_address) (some r.treasury_address)
      let s' : DB := { s with
        entries := updateFirst (entryFilter round_id tx_signature)
          (setVerdict verified now) s.entries }
      match s'.entries.find? (entryFilter round_id tx_signature) with
      | none => .error .NotFound
      | some e' => .ok (s', e')

/-- The eligible set of `draw_winner`:
`db["entry"].find({"round_id": round_id, "verified": True})`. -/
def eligibleEntries (s : DB) (round_id : String) : List Entry :=
  s.entries.filter (fun e => e.round_id == round_id && e.verified)

/-- The `$set` document of the round update inside `draw_winner`. -/
def drawUpdate (now : Nat) (winner_wallet : String) (r : Round) : Round :=
  { r with
    winner_address := some winner_wallet
    drawn_at := some now
    is_active := false
    updated_at := now }

/-- Route `POST /api/rounds/{round_id}/draw` (`draw_winner` in `main.py`): look up
the round (404), require it open (400), collect the verified entries of the
round (400 if none), pick one uniformly (`random.choice`, modelled by
`pick % length`), set winner/drawn_at/is_active in one `update_one`, and
return the re-fetched round together with the winner. -/
def draw_winner (s : DB) (now pick : Nat) (round_id : String) :
    Except ApiError (DB × Round × Entry) :=
  match findRound s round_id with
  | none => .error .NotFound
  | some r =>
    if r.is_active then
      let verified_entries := eligibleEntries s round_id
      if h : verified_entries.length = 0 then .error .NoEligibleEntries
      else
        let winner := verified_entries.get
          ⟨pick % verified_entries.length, Nat.mod_lt _ (Nat.pos_of_ne_zero h)⟩
        let s' : DB := { s with
          rounds := updateFirst (fun x => x.round_id == round_id)
            (drawUpdate now winner.wallet_address) s.rounds }
        match findRound s' round_id with
        | none => .error .NotFound
        | some updated => .ok (s', updated, winner)
    else .error .InvalidState

/-! ### Derived predicates, the step relation, and fixtures -/

/-- Round rid is closed in store `s`: the round `get_round` returns has
`is_active = false`. -/
def roundClosed (s : DB) (rid : String) : Prop :=
  ∃ r, findRound s rid = some r ∧ r.is_active = false

/-- One successful controller operation, with any arguments and any ledger
behaviour; failed requests raise before mutating and so do not change the
store. -/
inductive OpStep : DB → DB → Prop where
  | create (s : DB) (now : Nat) (rid : String) (fee : Nat)
      (treasury network : String) (s' : DB) (doc : Round) :
      create_round s now rid fee treasury network = .ok (s', doc) → OpStep s s'
  | enter (chain : Chain) (s : DB) (now : Nat) (rid wallet sig : String)
      (s' : DB) (e : Entry) :
      enter_round chain s now rid wallet sig = .ok (s', e) → OpStep s s'
  | reverify (chain : Chain) (s : DB) (now : Nat) (rid sig : String)
      (s' : DB) (e : Entry) :
      reverify_entry chain s now rid sig = .ok (s', e) → OpStep s s'
  | draw (s : DB) (now pick : Nat) (rid : String) (s' : DB) (u : Round)
      (w : Entry) :
      draw_winner s now pick rid = .ok (s', u, w) → OpStep s s'

/-- The invariant of §3: `winner_address` and `drawn_at` are both null or
both set, and once set the round is inactive. -/
def roundInv (r : Round) : Prop :=
  r.winner_address.isSome = r.drawn_at.isSome ∧
  (r.winner_address.isSome = true → r.is_active = false)

/-- Store-wide version: every round document satisfies `roundInv`. -/
def dbInv (s : DB) : Prop := ∀ r ∈ s.rounds, roundInv r

/-! ### Concrete fixtures used by the witnesses -/

/-- A ledger oracle: `SIGGOOD` is a confirmed transaction touching `W1` and
`TREAS`; every other signature is unknown (`result: null`). -/
def sampleChain : Chain := fun _ sig =>
  if sig == "SIGGOOD" then
    .response (some { meta := none, accountKeys := ["W1", "TREAS"] })
  else .response none

/-- A ledger whose endpoint always times out. -/
def timeoutChain : Chain := fun _ _ => .timeout

/-- A confirmed transaction with `meta` absent and the given account keys. -/
def goodResult : TxResult := { meta := none, accountKeys := ["W1", "TREAS"] }

/-- A ledger always answering with `goodResult`. -/
def goodChain : Chain := fun _ _ => .response (some goodResult)

/-- A ledger answering with a confirmed transaction that references no
accounts at all. -/
def emptyKeysChain : Chain := fun _ _ =>
  .response (some { meta := none, accountKeys := [] })

def emptyDB : DB := { rounds := [], entries := [] }

def sampleRound : Round := mkRoundDoc 0 "R1" 1000 "TREAS" "devnet"

def sampleCreatedDB : DB := { rounds := [sampleRound], entries := [] }

def sampleEntry : Entry := mkEntryDoc "R1" "W1" "S1" true 1

def sampleDB : DB := { rounds := [sampleRound], entries := [sampleEntry] }

def sampleDrawnRound : Round := drawUpdate 5 "W1" sampleRound

def sampleDrawnDB : DB := { rounds := [sampleDrawnRound], entries := [sampleEntry] }

/-- An open round with no entries yet, shared snapshot of the race. -/
def raceDB : DB := { rounds := [sampleRound], entries := [] }

/-- The entry document request A would build and insert. -/
def raceEntryA : Entry :=
  mkEntryDoc "R1" "W1" "SIGDUP"
    (verify_signature_on_chain sampleChain "devnet" "SIGDUP" (some "W1")
      (some "TREAS")) 2

/-- The entry document request B would build and insert. -/
def raceEntryB : Entry :=
  mkEntryDoc "R1" "W2" "SIGDUP"
    (verify_signature_on_chain sampleChain "devnet" "SIGDUP" (some "W2")
      (some "TREAS")) 2

def sampleReverifiedEntry : Entry := setVerdict false 3 sampleEntry

def sampleReverifiedDB : DB := { sampleDB with entries := [sampleReverifiedEntry] }

def sampleReverified2Entry : Entry := setVerdict false 4 sampleReverifiedEntry

def sampleReverified2DB : DB :=
  { sampleDB with entries := [sampleReverified2Entry] }

/-! ### List lemmas about `find?` and `updateFirst` -/

theorem find?_decomp {α : Type} (p : α → Bool) (f : α → α) :
    ∀ (l : List α) (a : α), l.find? p = some a →
      ∃ l1 l2, l = l1 ++ a :: l2 ∧ (∀ x ∈ l1, p x = false) ∧ p a = true ∧
        updateFirst p f l = l1 ++ f a :: l2 := by
  intro l
  induction l with
  | nil => intro a h; simp [List.find?] at h
  | cons x xs ih =>
    intro a h
    cases hx : p x with
    | true =>
      rw [List.find?_cons_of_pos _ hx] at h
      injection h with h
      subst h
      refine ⟨[], xs, rfl, ?_, hx, ?_⟩
      · intro y hy
        cases hy
      · simp [updateFirst, hx]
    | false =>
      rw [List.find?_cons_of_neg _ (by simp [hx])] at h
      obtain ⟨l1, l2, hl, hl1, hpa, hu⟩ := ih a h
      refine ⟨x :: l1, l2, by rw [List.cons_append, hl], ?_, hpa, ?_⟩
      · intro y hy
        rcases List.mem_cons.mp hy with hy | hy
        · rw [hy]; exact hx
        · exact hl1 y hy
      · simp [updateFirst, hx, hu]

theorem find?_append_some {α : Type} (p : α → Bool) :
    ∀ (l l' : List α) (a : α), l.find? p = some a → (l ++ l').find? p = some a := by
  intro l
  induction l with
  | nil => intro l' a h; simp [List.find?] at h
  | cons x xs ih =>
    intro l' a h
    cases hx : p x with
    | true =>
      rw [List.find?_cons_of_pos _ hx] at h
      rw [List.cons_append, List.find?_cons_of_pos _ hx]
      exact h
    | false =>
      rw [List.find?_cons_of_neg _ (by simp [hx])] at h
      rw [List.cons_append, List.find?_cons_of_neg _ (by simp [hx])]
      exact ih l' a h

theorem find?_append_of_none {α : Type} (p : α → Bool) :
    ∀ (l1 l2 : List α), (∀ x ∈ l1, p x = false) →
      (l1 ++ l2).find? p = l2.find? p := by
  intro l1
  induction l1 with
  | nil => intro l2 _; rfl
  | cons x xs ih =>
    intro l2 h
    rw [List.cons_append, List.find?_cons_of_neg _ (by simp [h x (by simp : x ∈ x :: xs)])]
    exact ih l2 (fun y hy => h y (List.mem_cons_of_mem x hy))

theorem find?_updateFirst_self {α : Type} (p : α → Bool) (f : α → α)
    (hpres : ∀ x, p (f x) = p x) (l : List α) (a : α) (h : l.find? p = some a) :
    (updateFirst p f l).find? p = some (f a) := by
  obtain ⟨l1, l2, _, hl1, hpa, hu⟩ := find?_decomp p f l a h
  rw [hu, find?_append_of_none p l1 (f a :: l2) hl1,
    List.find?_cons_of_pos _ (by rw [hpres]; exact hpa)]

theorem find?_updateFirst_of_ne {α : Type} (p q : α → Bool) (f : α → α)
    (hpres : ∀ x, q (f x) = q x) (hdisj : ∀ x, q x = true → p x = false) :
    ∀ l : List α, (updateFirst p f l).find? q = l.find? q := by
  intro l
  induction l with
  | nil => rfl
  | cons x xs ih =>
    cases hp : p x with
    | true =>
      have hqx : q x = false := by
        cases hq : q x with
        | true => rw [hdisj x hq] at hp; exact absurd hp (by simp)
        | false => rfl
      have hqf : q (f x) = false := by rw [hpres]; exact hqx
      simp only [updateFirst, hp, if_pos]
      rw [List.find?_cons_of_neg _ (by simp [hqf]), List.find?_cons_of_neg _ (by simp [hqx])]
    | false =>
      simp only [updateFirst, hp, Bool.false_eq_true, if_false]
      cases hq : q x with
      | true =>
        rw [List.find?_cons_of_pos _ hq, List.find?_cons_of_pos _ hq]
      | false =>
        rw [List.find?_cons_of_neg _ (by simp [hq]), List.find?_cons_of_neg _ (by simp [hq])]
        exact ih

theorem mem_updateFirst {α : Type} (p : α → Bool) (f : α → α) :
    ∀ (l : List α) (y : α), y ∈ updateFirst p f l →
      y ∈ l ∨ ∃ x, x ∈ l ∧ p x = true ∧ y = f x := by
  intro l
  induction l with
  | nil => intro y h; exact absurd h (by simp [updateFirst])
  | cons x xs ih =>
    intro y h
    cases hp : p x with
    | true =>
      simp only [updateFirst, hp, if_pos] at h
      rcases List.mem_cons.mp h with h | h
      · exact Or.inr ⟨x, List.mem_cons_self x xs, hp, h⟩
      · exact Or.inl (List.mem_cons_of_mem x h)
    | false =>
      simp only [updateFirst, hp, Bool.false_eq_true, if_false] at h
      rcases List.mem_cons.mp h with h | h
      · exact Or.inl (by rw [h]; exact List.mem_cons_self x xs)
      · rcases ih y h with h' | ⟨z, hz, hpz, hy⟩
        · exact Or.inl (List.mem_cons_of_mem x h')
        · exact Or.inr ⟨z, List.mem_cons_of_mem x hz, hpz, hy⟩

theorem find?_of_exists {α : Type} (p : α → Bool) (l : List α)
    (h : ∃ x ∈ l, p x = true) : ∃ a, l.find? p = some a := by
  cases hf : l.find? p with
  | some a => exact ⟨a, rfl⟩
  | none =>
    obtain ⟨x, hx, hpx⟩ := h
    have := List.find?_eq_none.mp hf x hx
    rw [hpx] at this
    exact absurd rfl this

/-! ### Inversion lemmas for the operations -/

theorem create_round_ok_inv (s : DB) (now : Nat) (rid : String) (fee : Nat)
    (treasury network : String) (s' : DB) (doc : Round)
    (h : create_round s now rid fee treasury network = .ok (s', doc)) :
    findRound s rid = none ∧ doc = mkRoundDoc now rid fee treasury network ∧
      s' = { s with rounds := s.rounds ++ [doc] } := by
  unfold create_round at h
  split at h
  · exact absurd h (by simp)
  · rename_i hf
    injection h with h
    injection h with h1 h2
    exact ⟨hf, h2.symm, by rw [← h1, h2]⟩

theorem enter_round_ok_inv (chain : Chain) (s : DB) (now : Nat)
    (rid wallet sig : String) (s' : DB) (e : Entry)
    (h : enter_round chain s now rid wallet sig = .ok (s', e)) :
    ∃ r, findRound s rid = some r ∧ r.is_active = true ∧
      findEntryBySig s sig = none ∧
      e = mkEntryDoc rid wallet sig
        (verify_signature_on_chain chain r.network sig (some wallet)
          (some r.treasury_address)) now ∧
      s' = enterInsert s e := by
  unfold enter_round at h
  split at h
  · exact absurd h (by simp)
  · rename_i r hr
    split at h
    · rename_i ha
      split at h
      · exact absurd h (by simp)
      · rename_i hfresh
        injection h with h
        injection h with h1 h2
        exact ⟨r, hr, ha, hfresh, h2.symm, by rw [← h1, h2]⟩
    · exact absurd h (by simp)

theorem reverify_entry_ok_inv (chain : Chain) (s : DB) (now : Nat)
    (rid sig : String) (s' : DB) (e' : Entry)
    (h : reverify_entry chain s now rid sig = .ok (s', e')) :
    ∃ r entry, findRound s rid = some r ∧
      s.entries.find? (entryFilter rid sig) = some entry ∧
      (let v := verify_signature_on_chain chain r.network sig
        (some entry.wallet_address) (some r.treasury_address)
       s' = { s with entries := (updateFirst (entryFilter rid sig)
               (setVerdict v now) s.entries) } ∧
         e' = setVerdict v now entry) := by
  unfold reverify_entry at h
  split at h
  · exact absurd h (by simp)
  · rename_i r hr
    split at h
    · exact absurd h (by simp)
    · rename_i entry hentry
      dsimp only at h
      split at h
      · exact absurd h (by simp)
      · rename_i e1 he1
        injection h with h
        injection h with h1 h2
        refine ⟨r, entry, hr, hentry, ?_, ?_⟩
        · rw [← h1]
        · have hself := find?_updateFirst_self (entryFilter rid sig)
            (setVerdict (verify_signature_on_chain chain r.network sig
              (some entry.wallet_address) (some r.treasury_address)) now)
            (fun x => rfl) s.entries entry hentry
          rw [hself] at he1
          injection he1 with he1
          rw [← h2, ← he1]

theorem draw_winner_ok_inv (s : DB) (now pick : Nat) (rid : String)
    (s' : DB) (u : Round) (w : Entry)
    (h : draw_winner s now pick rid = .ok (s', u, w)) :
    ∃ r, findRound s rid = some r ∧ r.is_active = true ∧
      w ∈ eligibleEntries s rid ∧
      s' = { s with rounds := (updateFirst (fun x => x.round_id == rid)
              (drawUpdate now w.wallet_address) s.rounds) } ∧
      findRound s' rid = some u := by
  unfold draw_winner at h
  split at h
  · exact absurd h (by simp)
  · rename_i r hr
    split at h
    · rename_i ha
      dsimp only at h
      split at h
      · exact absurd h (by simp)
      · rename_i hne
        split at h
        · exact absurd h (by simp)
        · rename_i updated hupd
          injection h with h
          injection h with h1 h2
          injection h2 with h2 h3
          refine ⟨r, hr, ha, ?_, ?_, ?_⟩
          · rw [← h3]
            exact List.get_mem _ _ _
          · rw [← h1, ← h3]
          · rw [← h1, ← h2]
            exact hupd
    · exact absurd h (by simp)

theorem draw_winner_closed (s : DB) (now pick : Nat) (rid : String) (r : Round)
    (hr : findRound s rid = some r) (ha : r.is_active = false) :
    draw_winner s now pick rid = .error .InvalidState := by
  unfold draw_winner
  rw [hr]
  simp [ha]

theorem draw_winner_no_eligible (s : DB) (now pick : Nat) (rid : String) (r : Round)
    (hr : findRound s rid = some r) (ha : r.is_active = true)
    (hempty : eligibleEntries s rid = []) :
    draw_winner s now pick rid = .error .NoEligibleEntries := by
  unfold draw_winner
  rw [hr]
  simp [ha, hempty]

example : draw_winner sampleDB 5 0 "R1" =
    .ok (sampleDrawnDB, sampleDrawnRound, sampleEntry) := rfl

/-! ### C1 -/

/-- **C1**: a successful `draw_winner` returns a winner whose entry is one
of the store's entries, belongs to the drawn round and has
`verified = true`; and if an open round has no verified entry, the draw
fails with `NoEligibleEntries`. -/
theorem draw_selects_verified_member (s : DB) (now pick : Nat) (rid : String) :
    (∀ s' u w, draw_winner s now pick rid = .ok (s', u, w) →
        w ∈ s.entries ∧ w.round_id = rid ∧ w.verified = true) ∧
    (∀ r, findRound s rid = some r → r.is_active = true →
        (∀ e ∈ s.entries, e.round_id = rid → e.verified = false) →
        draw_winner s now pick rid = .error .NoEligibleEntries) := by
  constructor
  · intro s' u w h
    obtain ⟨r, hr, ha, hw, hs, hu⟩ := draw_winner_ok_inv s now pick rid s' u w h
    unfold eligibleEntries at hw
    obtain ⟨hmem, hpred⟩ := List.mem_filter.mp hw
    simp only [Bool.and_eq_true, beq_iff_eq] at hpred
    exact ⟨hmem, hpred.1, hpred.2⟩
  · intro r hr ha hnone
    apply draw_winner_no_eligible s now pick rid r hr ha
    unfold eligibleEntries
    apply List.filter_eq_nil_iff.mpr
    intro e he
    simp only [Bool.and_eq_true, beq_iff_eq, not_and]
    intro h1
    rw [hnone e he h1]
    simp

theorem draw_selects_verified_member_witness :
    sampleEntry ∈ sampleDB.entries ∧ sampleEntry.round_id = "R1" ∧
      sampleEntry.verified = true :=
  (draw_selects_verified_member sampleDB 5 0 "R1").1
    sampleDrawnDB sampleDrawnRound sampleEntry rfl

/-! ### C2 -/

theorem opStep_preserves_closed (s s' : DB) (rid : String)
    (hstep : OpStep s s') (hc : roundClosed s rid) : roundClosed s' rid := by
  obtain ⟨r, hr, hin⟩ := hc
  cases hstep with
  | create s now rid2 fee treasury network s' doc h =>
    obtain ⟨hnone, hdoc, hs⟩ := create_round_ok_inv s now rid2 fee treasury network s' doc h
    refine ⟨r, ?_, hin⟩
    rw [hs]
    unfold findRound at hr ⊢
    exact find?_append_some _ s.rounds [doc] r hr
  | enter chain s now rid2 wallet sig s' e h =>
    obtain ⟨r2, _, _, _, _, hs⟩ := enter_round_ok_inv chain s now rid2 wallet sig s' e h
    refine ⟨r, ?_, hin⟩
    rw [hs]
    exact hr
  | reverify chain s now rid2 sig s' e h =>
    obtain ⟨r2, entry, _, _, hlet⟩ := reverify_entry_ok_inv chain s now rid2 sig s' e h
    refine ⟨r, ?_, hin⟩
    rw [hlet.1]
    exact hr
  | draw s now pick rid2 s' u w h =>
    obtain ⟨r2, hr2, ha2, _, hs, _⟩ := draw_winner_ok_inv s now pick rid2 s' u w h
    by_cases hx : rid2 = rid
    · subst hx
      rw [hr] at hr2
      injection hr2 with hr2
      rw [← hr2] at ha2
      rw [ha2] at hin
      exact absurd hin (by simp)
    · refine ⟨r, ?_, hin⟩
      rw [hs]
      unfold findRound at hr ⊢
      rw [find?_updateFirst_of_ne (fun x => x.round_id == rid2)
        (fun x => x.round_id == rid) (drawUpdate now w.wallet_address)
        (fun x => rfl) ?_ s.rounds]
      · exact hr
      · intro x hqx
        show (x.round_id == rid2) = false
        have hxr : x.round_id = rid := beq_iff_eq.mp hqx
        rw [hxr]
        exact beq_eq_false_iff_ne.mpr (fun hh => hx hh.symm)

theorem rtg_preserves_closed (s s' : DB) (rid : String)
    (h : Relation.ReflTransGen OpStep s s') (hc : roundClosed s rid) :
    roundClosed s' rid := by
  induction h with
  | refl => exact hc
  | tail _ hstep ih => exact opStep_preserves_closed _ _ rid hstep ih

/-- **C2**: once a draw for round `rid` has succeeded, after any further
sequence of successful operations the round is still closed
(`is_active = false`), and every later `draw_winner` on it fails with
`InvalidState`. -/
theorem draw_terminal_invalid_state (s : DB) (now pick : Nat) (rid : String)
    (s1 : DB) (u : Round) (w : Entry)
    (hdraw : draw_winner s now pick rid = .ok (s1, u, w)) :
    ∀ s2, Relation.ReflTransGen OpStep s1 s2 →
      (∃ r2, findRound s2 rid = some r2 ∧ r2.is_active = false) ∧
      ∀ n p, draw_winner s2 n p rid = .error .InvalidState := by
  have h1 : roundClosed s1 rid := by
    obtain ⟨r, hr, ha, hw, hs, hu⟩ := draw_winner_ok_inv s now pick rid s1 u w hdraw
    refine ⟨drawUpdate now w.wallet_address r, ?_, rfl⟩
    rw [hs]
    unfold findRound at hr ⊢
    exact find?_updateFirst_self (fun x => x.round_id == rid)
      (drawUpdate now w.wallet_address) (fun x => rfl) s.rounds r hr
  intro s2 hrtg
  obtain ⟨r2, hr2, hin2⟩ := rtg_preserves_closed s1 s2 rid hrtg h1
  exact ⟨⟨r2, hr2, hin2⟩, fun n p => draw_winner_closed s2 n p rid r2 hr2 hin2⟩

theorem draw_terminal_invalid_state_witness :
    draw_winner sampleDrawnDB 7 3 "R1" = .error .InvalidState :=
  ((draw_terminal_invalid_state sampleDB 5 0 "R1" sampleDrawnDB sampleDrawnRound
      sampleEntry rfl) sampleDrawnDB Relation.ReflTransGen.refl).2 7 3

/-! ### C3 -/

/-- **C3**: `create_round` establishes the round invariant (winner and
drawn_at null, round active) and preserves it; `enter_round` and
`reverify_entry` never touch the round collection; `draw_winner` is the one
transition that sets `winner_address` and `drawn_at`, and its single update
also clears `is_active`, so the invariant is preserved by every
operation. -/
theorem round_invariant_preserved (s : DB) :
    (∀ now rid fee treasury network s' doc,
        create_round s now rid fee treasury network = .ok (s', doc) →
        doc.winner_address = none ∧ doc.drawn_at = none ∧
        doc.is_active = true ∧ (dbInv s → dbInv s')) ∧
    (∀ chain now rid wallet sig s' e,
        enter_round chain s now rid wallet sig = .ok (s', e) →
        s'.rounds = s.rounds) ∧
    (∀ chain now rid sig s' e,
        reverify_entry chain s now rid sig = .ok (s', e) →
        s'.rounds = s.rounds) ∧
    (∀ now pick rid s' u w,
        draw_winner s now pick rid = .ok (s', u, w) →
        u.winner_address = some w.wallet_address ∧ u.drawn_at = some now ∧
        u.is_active = false ∧ (dbInv s → dbInv s')) := by
  refine ⟨?_, ?_, ?_, ?_⟩
  · intro now rid fee treasury network s' doc h
    obtain ⟨hnone, hdoc, hs⟩ := create_round_ok_inv s now rid fee treasury network s' doc h
    subst hdoc
    refine ⟨rfl, rfl, rfl, ?_⟩
    intro hinv r' hr'
    rw [hs] at hr'
    rcases List.mem_append.mp hr' with hmem | hmem
    · exact hinv r' hmem
    · rw [List.mem_singleton.mp hmem]
      exact ⟨rfl, fun hcon => absurd hcon (by simp [mkRoundDoc])⟩
  · intro chain now rid wallet sig s' e h
    obtain ⟨r, _, _, _, _, hs⟩ := enter_round_ok_inv chain s now rid wallet sig s' e h
    rw [hs]
    rfl
  · intro chain now rid sig s' e h
    obtain ⟨r, entry, _, _, hlet⟩ := reverify_entry_ok_inv chain s now rid sig s' e h
    rw [hlet.1]
  · intro now pick rid s' u w h
    obtain ⟨r, hr, ha, hw, hs, hu⟩ := draw_winner_ok_inv s now pick rid s' u w h
    have hself : findRound s' rid = some (drawUpdate now w.wallet_address r) := by
      rw [hs]
      unfold findRound at hr ⊢
      exact find?_updateFirst_self (fun x => x.round_id == rid)
        (drawUpdate now w.wallet_address) (fun x => rfl) s.rounds r hr
    rw [hself] at hu
    injection hu with hu
    refine ⟨by rw [← hu]; rfl, by rw [← hu]; rfl, by rw [← hu]; rfl, ?_⟩
    intro hinv r' hr'
    rw [hs] at hr'
    rcases mem_updateFirst (fun x => x.round_id == rid)
        (drawUpdate now w.wallet_address) s.rounds r' hr' with hmem | ⟨x, hx, hpx, hfx⟩
    · exact hinv r' hmem
    · rw [hfx]
      exact ⟨rfl, fun _ => rfl⟩

theorem round_invariant_preserved_witness :
    sampleRound.winner_address = none ∧ sampleRound.drawn_at = none ∧
      sampleRound.is_active = true := by
  have h := (round_invariant_preserved emptyDB).1 0 "R1" 1000 "TREAS" "devnet"
    sampleCreatedDB sampleRound rfl
  exact ⟨h.1, h.2.1, h.2.2.1⟩

/-! ### C4 -/

/-- **C4**: submitting an entry to an existing open round fails with
`Conflict` as soon as any stored entry — in any round, verified or not —
already carries the same `tx_signature`.  The duplicate check of
`enter_round` runs before `insert_one`, and in this model an erroring
request returns no successor store, mirroring that the raise happens before
any mutation: no new entry is stored. -/
theorem enter_duplicate_signature_conflict (chain : Chain) (s : DB) (now : Nat)
    (rid wallet sig : String) (r : Round)
    (hr : findRound s rid = some r) (ha : r.is_active = true)
    (hdup : ∃ e ∈ s.entries, e.tx_signature = sig) :
    enter_round chain s now rid wallet sig = .error .Conflict := by
  obtain ⟨efound, hfound⟩ := find?_of_exists (fun e => e.tx_signature == sig) s.entries
    (by
      obtain ⟨e, he, hsig⟩ := hdup
      exact ⟨e, he, by show (e.tx_signature == sig) = true; rw [hsig]; exact beq_self_eq_true sig⟩)
  unfold enter_round findEntryBySig
  rw [hr]
  dsimp only
  rw [if_pos ha, hfound]

theorem enter_duplicate_signature_conflict_witness :
    enter_round sampleChain sampleDB 2 "R1" "W2" "S1" = .error .Conflict :=
  enter_duplicate_signature_conflict sampleChain sampleDB 2 "R1" "W2" "S1"
    sampleRound rfl rfl ⟨sampleEntry, by simp [sampleDB], rfl⟩

/-! ### C5 -/

/-- **C5**: submitting a fresh signature to an existing open round always
succeeds; the stored and returned entry carries exactly the verifier's
boolean verdict in `verified`, and a `false` verdict does not cause a
rejection — the entry is appended to the store and returned all the same. -/
theorem enter_fresh_stores_verifier_verdict (chain : Chain) (s : DB) (now : Nat)
    (rid wallet sig : String) (r : Round)
    (hr : findRound s rid = some r) (ha : r.is_active = true)
    (hfresh : ∀ e ∈ s.entries, e.tx_signature ≠ sig) :
    enter_round chain s now rid wallet sig =
      .ok (enterInsert s (mkEntryDoc rid wallet sig
             (verify_signature_on_chain chain r.network sig (some wallet)
               (some r.treasury_address)) now),
           mkEntryDoc rid wallet sig
             (verify_signature_on_chain chain r.network sig (some wallet)
               (some r.treasury_address)) now) ∧
    (mkEntryDoc rid wallet sig
      (verify_signature_on_chain chain r.network sig (some wallet)
        (some r.treasury_address)) now).verified =
      verify_signature_on_chain chain r.network sig (some wallet)
        (some r.treasury_address) := by
  have hnone : s.entries.find? (fun e => e.tx_signature == sig) = none := by
    apply List.find?_eq_none.mpr
    intro e he
    simp only [beq_iff_eq]
    exact fun hcon => hfresh e he hcon
  constructor
  · unfold enter_round findEntryBySig
    rw [hr]
    dsimp only
    rw [if_pos ha, hnone]
  · rfl

theorem enter_fresh_stores_verifier_verdict_witness :
    enter_round sampleChain sampleDB 2 "R1" "W9" "SIGX" =
      .ok (enterInsert sampleDB (mkEntryDoc "R1" "W9" "SIGX"
             (verify_signature_on_chain sampleChain "devnet" "SIGX" (some "W9")
               (some "TREAS")) 2),
           mkEntryDoc "R1" "W9" "SIGX"
             (verify_signature_on_chain sampleChain "devnet" "SIGX" (some "W9")
               (some "TREAS")) 2) ∧
    verify_signature_on_chain sampleChain "devnet" "SIGX" (some "W9")
      (some "TREAS") = false := by
  have h := enter_fresh_stores_verifier_verdict sampleChain sampleDB 2 "R1" "W9"
    "SIGX" sampleRound rfl rfl
    (by
      intro e he hcon
      simp [sampleDB, sampleEntry, mkEntryDoc] at he
      rw [he] at hcon
      exact absurd hcon (by decide))
  exact ⟨h.1, rfl⟩

/-! ### C6 -/

/-- **C6**: the verifier is a total boolean function (no failure mode
escapes to the caller), and it returns `false` whenever the transaction is
not found (`result` missing or null), the query times out, the query fails
at the transport level, or the `meta` of the fetched transaction reports a
non-null on-chain error. -/
theorem verify_total_and_fail_closed (chain : Chain) (network sig : String)
    (ew et : Option String) :
    (verify_signature_on_chain chain network sig ew et = true ∨
     verify_signature_on_chain chain network sig ew et = false) ∧
    (chain (resolveEndpoint network) sig = .timeout →
      verify_signature_on_chain chain network sig ew et = false) ∧
    (chain (resolveEndpoint network) sig = .transportFailure →
      verify_signature_on_chain chain network sig ew et = false) ∧
    (chain (resolveEndpoint network) sig = .response none →
      verify_signature_on_chain chain network sig ew et = false) ∧
    (∀ result m e, chain (resolveEndpoint network) sig = .response (some result) →
      result.meta = some m → m.err = some e →
      verify_signature_on_chain chain network sig ew et = false) := by
  refine ⟨Bool.eq_false_or_eq_true _, ?_, ?_, ?_, ?_⟩
  · intro h
    simp [verify_signature_on_chain, h]
  · intro h
    simp [verify_signature_on_chain, h]
  · intro h
    simp [verify_signature_on_chain, h]
  · intro result m e hresp hmeta herr
    simp [verify_signature_on_chain, hresp, metaHasErr, hmeta, herr]

theorem verify_total_and_fail_closed_witness :
    verify_signature_on_chain timeoutChain "devnet" "SIG" (some "W") (some "T") =
      false :=
  (verify_total_and_fail_closed timeoutChain "devnet" "SIG" (some "W")
    (some "T")).2.1 rfl

/-! ### C7 -/

/-- **C7** counterexample: both `expected_wallet` and `expected_treasury`
are supplied — as empty strings — the fetched transaction references no
accounts at all, yet the verifier returns `true`: the Python test
`if expected_wallet and ...` skips the membership test for a falsy (empty)
supplied string. -/
theorem verify_empty_supplied_counterexample :
    verify_signature_on_chain emptyKeysChain "devnet" "SIG" (some "")
      (some "") = true ∧
    ("" ∈ ([] : List String) → False) := by
  refine ⟨rfl, ?_⟩
  intro h
  cases h

/-- **C7** (amended): whenever the supplied `expected_wallet` and
`expected_treasury` are non-empty strings, a `true` verdict implies both
literal addresses are members (exact string equality) of the fetched
`accountKeys` of the fetched transaction; contrapositively, unless both appear the
verifier returns false. -/
theorem verify_nonempty_requires_membership (chain : Chain)
    (network sig w t : String) (hw : w ≠ "") (ht : t ≠ "")
    (h : verify_signature_on_chain chain network sig (some w) (some t) = true) :
    ∃ result, chain (resolveEndpoint network) sig = .response (some result) ∧
      w ∈ result.accountKeys ∧ t ∈ result.accountKeys := by
  unfold verify_signature_on_chain at h
  dsimp only at h
  cases hc : chain (resolveEndpoint network) sig with
  | timeout => rw [hc] at h; simp at h
  | transportFailure => rw [hc] at h; simp at h
  | response o =>
    cases o with
    | none => rw [hc] at h; simp at h
    | some result =>
      rw [hc] at h
      dsimp only at h
      refine ⟨result, rfl, ?_, ?_⟩
      all_goals {
        by_cases hm : metaHasErr result.meta = true
        · rw [if_pos hm] at h; exact absurd h (by simp)
        · rw [if_neg hm] at h
          have hand := Bool.and_eq_true_iff.mp h
          first
          | (have hok := hand.1
             unfold accountKeyOk at hok
             rcases Bool.or_eq_true_iff.mp hok with hemp | hcont
             · exact absurd ((String.isEmpty_iff w).mp hemp) hw
             · simpa using hcont)
          | (have hok := hand.2
             unfold accountKeyOk at hok
             rcases Bool.or_eq_true_iff.mp hok with hemp | hcont
             · exact absurd ((String.isEmpty_iff t).mp hemp) ht
             · simpa using hcont)
      }

theorem verify_nonempty_requires_membership_witness :
    "W1" ∈ goodResult.accountKeys ∧ "TREAS" ∈ goodResult.accountKeys := by
  obtain ⟨result, hresp, hmem1, hmem2⟩ := verify_nonempty_requires_membership
    goodChain "devnet" "SIG" "W1" "TREAS" (by decide) (by decide) rfl
  injection hresp with hresp
  injection hresp with hresp
  rw [← hresp] at hmem1 hmem2
  exact ⟨hmem1, hmem2⟩

/-! ### C10 -/

/-- **C10**: when the RPC response carries a non-null `result` whose `meta`
is absent (falsy), the on-chain execution-error check is skipped and the
verdict is exactly the conjunction of the two account-membership checks —
in particular the verifier can return `true` for such a transaction. -/
theorem verify_missing_meta_skips_err_check (chain : Chain)
    (network sig : String) (ew et : Option String) (result : TxResult)
    (hresp : chain (resolveEndpoint network) sig = .response (some result))
    (hmeta : result.meta = none) :
    verify_signature_on_chain chain network sig ew et =
      (accountKeyOk result.accountKeys ew && accountKeyOk result.accountKeys et) := by
  simp [verify_signature_on_chain, hresp, metaHasErr, hmeta]

theorem verify_missing_meta_skips_err_check_witness :
    verify_signature_on_chain goodChain "devnet" "SIG" (some "W1")
        (some "TREAS") =
      (accountKeyOk goodResult.accountKeys (some "W1") &&
       accountKeyOk goodResult.accountKeys (some "TREAS")) ∧
    verify_signature_on_chain goodChain "devnet" "SIG" (some "W1")
        (some "TREAS") = true :=
  ⟨verify_missing_meta_skips_err_check goodChain "devnet" "SIG" (some "W1")
    (some "TREAS") goodResult rfl rfl, rfl⟩

/-! ### C8 -/

/-- **C8** (the code races): `enter_round` implements the duplicate guard as
an application-level check (`findEntryBySig`, the `find_one` of line 178)
followed by a separate `insert_one` (`enterInsert`, line 192); no
persistence-layer uniqueness constraint exists anywhere in the code.  Under
the interleaving check-A, check-B, insert-A, insert-B, both checks run
against the same snapshot and return `none`, so neither request takes the
`Conflict` branch; both inserts then go through, leaving two stored entries
with the same `tx_signature` and two successful responses.  Sequentially,
each single request on the snapshot does succeed, as the last two conjuncts
record. -/
theorem enter_check_then_insert_race :
    findEntryBySig raceDB "SIGDUP" = none ∧
    ((enterInsert (enterInsert raceDB raceEntryA) raceEntryB).entries.filter
      (fun e => e.tx_signature == "SIGDUP")).length = 2 ∧
    enter_round sampleChain raceDB 2 "R1" "W1" "SIGDUP" =
      .ok (enterInsert raceDB raceEntryA, raceEntryA) ∧
    enter_round sampleChain raceDB 2 "R1" "W2" "SIGDUP" =
      .ok (enterInsert raceDB raceEntryB, raceEntryB) :=
  ⟨rfl, rfl, rfl, rfl⟩

/-! ### C9 -/

theorem reverify_entry_ok_of (chain : Chain) (s : DB) (now : Nat)
    (rid sig : String) (r : Round) (entry : Entry)
    (hr : findRound s rid = some r)
    (hentry : s.entries.find? (entryFilter rid sig) = some entry) :
    reverify_entry chain s now rid sig =
      .ok ({ s with entries := (updateFirst (entryFilter rid sig)
              (setVerdict (verify_signature_on_chain chain r.network sig
                (some entry.wallet_address) (some r.treasury_address)) now)
              s.entries) },
           setVerdict (verify_signature_on_chain chain r.network sig
             (some entry.wallet_address) (some r.treasury_address)) now entry) := by
  unfold reverify_entry
  rw [hr]
  dsimp only
  rw [hentry]
  dsimp only
  rw [find?_updateFirst_self (entryFilter rid sig)
    (setVerdict (verify_signature_on_chain chain r.network sig
      (some entry.wallet_address) (some r.treasury_address)) now)
    (fun x => rfl) s.entries entry hentry]

/-- **C9**: a successful `reverify_entry` leaves the round collection
untouched and rewrites exactly one entry — only its `verified` and
`updated_at` fields, every other entry and field staying as it was; calling
it again with the ledger unchanged succeeds and yields the same `verified`
value, so the verdict is idempotent. -/
theorem reverify_idempotent_no_side_effects (chain : Chain) (s : DB)
    (n1 n2 : Nat) (rid sig : String) (s1 : DB) (e1 : Entry)
    (h : reverify_entry chain s n1 rid sig = .ok (s1, e1)) :
    s1.rounds = s.rounds ∧
    (∃ l1 entry l2, s.entries = l1 ++ entry :: l2 ∧
        s1.entries = l1 ++ setVerdict e1.verified n1 entry :: l2 ∧
        e1 = setVerdict e1.verified n1 entry) ∧
    (∃ s2 e2, reverify_entry chain s1 n2 rid sig = .ok (s2, e2) ∧
        e2.verified = e1.verified) := by
  obtain ⟨r, entry, hr, hentry, hs1, he1⟩ :=
    reverify_entry_ok_inv chain s n1 rid sig s1 e1 h
  have hv : e1.verified = verify_signature_on_chain chain r.network sig
      (some entry.wallet_address) (some r.treasury_address) := by
    rw [he1]
    rfl
  refine ⟨by rw [hs1], ?_, ?_⟩
  · obtain ⟨l1, l2, hl, hl1, hpa, hu⟩ := find?_decomp (entryFilter rid sig)
      (setVerdict (verify_signature_on_chain chain r.network sig
        (some entry.wallet_address) (some r.treasury_address)) n1)
      s.entries entry hentry
    refine ⟨l1, entry, l2, hl, ?_, by subst he1; rfl⟩
    rw [hs1]
    dsimp only
    rw [hu, hv]
  · have hr1 : findRound s1 rid = some r := by
      rw [hs1]
      exact hr
    have hentry1 : s1.entries.find? (entryFilter rid sig) =
        some (setVerdict (verify_signature_on_chain chain r.network sig
          (some entry.wallet_address) (some r.treasury_address)) n1 entry) := by
      rw [hs1]
      exact find?_updateFirst_self (entryFilter rid sig)
        (setVerdict (verify_signature_on_chain chain r.network sig
          (some entry.wallet_address) (some r.treasury_address)) n1)
        (fun x => rfl) s.entries entry hentry
    refine ⟨_, _, reverify_entry_ok_of chain s1 n2 rid sig r _ hr1 hentry1, ?_⟩
    rw [hv]
    rfl

theorem reverify_idempotent_no_side_effects_witness :
    sampleReverified2Entry.verified = sampleReverifiedEntry.verified := by
  obtain ⟨s2, e2, hok, hveq⟩ := (reverify_idempotent_no_side_effects sampleChain
    sampleDB 3 4 "R1" "S1" sampleReverifiedDB sampleReverifiedEntry rfl).2.2
  have hconc : reverify_entry sampleChain sampleReverifiedDB 4 "R1" "S1" =
      .ok (sampleReverified2DB, sampleReverified2Entry) := rfl
  rw [hconc] at hok
  injection hok with hok
  injection hok with hok1 hok2
  rw [← hok2] at hveq
  exact hveq
